import Mathlib

/-!
# Verification of `opencode-azure-setup` (src/index.js)

A shallow embedding, in Lean 4, of the configuration installer in
`src/index.js`, together with theorems settling the specification claims
about it.

Modelling conventions:

* JavaScript strings are Lean `String`s; the JS string operations used by
  the source (`startsWith`, `endsWith`, `split`, `slice`,
  `replace(/\/$/,'')`, …) are re-implemented here on `List Char`.
* The WHATWG `URL` class is external to the repository; it is modelled by
  `urlParse` on a restricted input alphabet (lowercase `http`/`https`
  scheme, hosts without ports or escapes whose labels are non-empty and
  whose final label is not numeric — so the real parser performs no IPv4
  parsing and no IDNA rewriting — no percent-encoding, no fragments, no
  `.`/`..` path segments).  The model is *sound*: whenever
  `urlParse input = some u`, the real parser accepts `input` and produces
  exactly `u`'s scheme, host, path and query.  The model is deliberately
  not complete: many inputs the real parser accepts (fragments, ports,
  uppercase, percent-escapes, numeric hosts) are outside its domain, and
  no theorem below sends such inputs through the `catch` branch.  The
  `catch` branch is instead quantified by `realParseFails` (the input
  contains no colon), a sound under-approximation of real parse failure:
  a colon-free string has no scheme, and `new URL` without a base always
  throws on it.  All concrete inputs appearing in counterexamples and
  witnesses below behave identically under the real WHATWG parser.
* The regex `/\/deployments\/([^/]+)/` and `searchParams.get` are modelled
  segment-wise (`findDeployment`, `queryGet`); since every path produced
  by the parser starts with `/` and path segments contain no `/`, the
  first regex match is exactly the first `deployments` segment followed by
  a non-empty segment.
* JSON documents (`opencode.json`) are modelled by the inductive `JVal`;
  `JSON.parse ∘ JSON.stringify` is the identity on this type, so the
  persisted file is modelled by an `Option JVal` (with `none` for a
  missing or unreadable file).  The merge step mutates `config` in place,
  and its only later reader of `config.provider` is the
  `JSON.stringify` call that persists it; `mergeStep` therefore returns
  the merged document *as it serializes*.  In particular, assigning
  `.azure` on a truthy array `provider` succeeds in memory, but
  `JSON.stringify` drops non-index array properties, so the serialized
  provider entry is the bare array; a truthy primitive `provider` makes
  the strict-mode assignment throw a `TypeError` (`none`).
* `testConnection` builds the URL and the request inside its promise
  executor; both the URL constructor and Node's header-value validation
  (`ERR_INVALID_CHAR` for header values outside tab/0x20–0x7E/0x80–0xFF)
  can throw there, rejecting the promise to the caller; both fault paths
  are modelled as `Except.error`.
* The orchestrator `main` is modelled as a pure function from its oracles
  (prompt answers, probe outcomes, the fetched defaults) to a trace of
  observable events (prompts, network probes, file writes, process exit)
  plus the final persisted file content.  Terminal rendering, the MCP
  package install and the binary download are external I/O; only their
  config-document effects are modelled.
-/

namespace AzureSetup

/-! ## List-level string primitives (JS semantics) -/

/-- `listStartsWith l p`: `p` is an initial run of `l` (JS `startsWith`). -/
def listStartsWith : List Char → List Char → Bool
  | _, [] => true
  | [], _ :: _ => false
  | a :: l, b :: p => a = b && listStartsWith l p

/-- `listEndsWith l p`: `p` is a final run of `l` (JS `endsWith`). -/
def listEndsWith (l p : List Char) : Bool :=
  listStartsWith l.reverse p.reverse

/-- `listHasSub l p`: `p` occurs contiguously inside `l` (JS `includes`). -/
def listHasSub : List Char → List Char → Bool
  | l, p => if listStartsWith l p then true else
      match l with
      | [] => false
      | _ :: t => listHasSub t p

/-- JS `s.startsWith t`. -/
def strStartsWith (s t : String) : Bool := listStartsWith s.data t.data

/-- JS `s.endsWith t`. -/
def strEndsWith (s t : String) : Bool := listEndsWith s.data t.data

/-- JS `s.replace(/\/$/, '')`: drop one trailing `/` if present. -/
def stripTrailingSlash (s : String) : String :=
  if strEndsWith s "/" then ⟨s.data.dropLast⟩ else s

/-- Split a character list at every occurrence of `sep` (JS `split`). -/
def splitCharAux (sep : Char) : List Char → List Char → List (List Char)
  | [], acc => [acc.reverse]
  | c :: cs, acc =>
      if c = sep then acc.reverse :: splitCharAux sep cs []
      else splitCharAux sep cs (c :: acc)

/-- JS `s.split(sep)` for a single-character separator. -/
def splitChar (sep : Char) (l : List Char) : List (List Char) :=
  splitCharAux sep l []

/-- JS `s.split('/')` producing strings. -/
def splitSlash (s : String) : List String :=
  (splitChar '/' s.data).map (fun l => ⟨l⟩)

/-- JS `a.join('/')` on an array of strings. -/
def joinSlash : List String → String
  | [] => ""
  | [x] => x
  | x :: y :: rest => x ++ "/" ++ joinSlash (y :: rest)

/-- JS `a.indexOf(x)` on an array of strings, for `x` known to occur. -/
def idxOfStr (x : String) : List String → Nat
  | [] => 0
  | a :: l => if a = x then 0 else idxOfStr x l + 1

/-! ## WHATWG URL model (restricted domain) -/

/-- Characters the model admits in a host name. -/
def hostChar (c : Char) : Bool :=
  c.isLower || c.isDigit || c = '-' || c = '.' || c = '_'

/-- Characters the model admits in a path. -/
def pathChar (c : Char) : Bool :=
  c.isAlpha || c.isDigit || c = '-' || c = '.' || c = '_' || c = '~' || c = '/'

/-- Characters the model admits in a query string. -/
def queryChar (c : Char) : Bool :=
  c.isAlpha || c.isDigit || c = '-' || c = '.' || c = '_' || c = '~' ||
    c = '=' || c = '&' || c = '/' || c = '?'

/-- Hex digits as read by the WHATWG IPv4 number parser (hosts are
already all-lowercase here). -/
def isHexDigitCh (c : Char) : Bool := c.isDigit || ('a' ≤ c && c ≤ 'f')

/-- A dot-label the WHATWG host parser treats as a number; a host whose
last label is numeric is sent into IPv4 parsing (and may then be
rewritten or rejected). -/
def numericLabel (l : List Char) : Bool :=
  !l.isEmpty &&
    (l.all Char.isDigit ||
      (listStartsWith l ['0', 'x'] && (l.drop 2).all isHexDigitCh))

/-- Conservative host shape: non-empty dot-labels with a non-numeric
final label.  On the model's host alphabet the real parser keeps such a
host verbatim (no IPv4 parsing, no IDNA rewriting). -/
def hostLabelsOk (host : List Char) : Bool :=
  let labels := splitChar '.' host
  labels.all (fun l => !l.isEmpty) && !numericLabel (labels.getLastD [])

/-- A parsed URL: scheme (`"https:"`/`"http:"`), host, the path as the
result of `pathname.split('/')` (so the first segment is always `""`),
and the raw query (`""` or starting with `?`). -/
structure Url where
  scheme : String
  host : String
  pathSegs : List String
  search : String

/-- Parse the part of the input after the scheme. -/
def urlParseAfter (scheme : String) (rest : List Char) : Option Url :=
  let host := rest.takeWhile (fun c => !(c = '/' || c = '?'))
  let after := rest.drop host.length
  if host = [] then none
  else if !host.all hostChar then none
  else if !hostLabelsOk host then none
  else
    let rawPath := after.takeWhile (fun c => !(c = '?'))
    let srch := after.drop rawPath.length
    if !(rawPath.all pathChar && srch.all queryChar) then none
    else
      let pathData := if rawPath = [] then ['/'] else rawPath
      let segs := splitSlash ⟨pathData⟩
      if !(segs.all fun s => !(s = "." || s = "..")) then none
      else some ⟨scheme, ⟨host⟩, segs, ⟨srch⟩⟩

/-- Model of `new URL(input)`: `some` on the restricted well-formed
domain described in the header, `none` where the constructor throws. -/
def urlParse (input : String) : Option Url :=
  if strStartsWith input "https://" then urlParseAfter "https:" (input.data.drop 8)
  else if strStartsWith input "http://" then urlParseAfter "http:" (input.data.drop 7)
  else none

/-- Sound under-approximation of "the real `new URL(input)` throws": an
input with no colon anywhere has no scheme, and a scheme-less absolute
parse (there is no base URL) always throws.  The catch-branch theorems
quantify over this predicate, never over mere model-parse failure. -/
def realParseFails (input : String) : Bool :=
  !input.data.any (fun c => c = ':')

/-- `url.toString()` for the modelled URL (no port, no fragment). -/
def urlToString (u : Url) : String :=
  u.scheme ++ "//" ++ u.host ++ joinSlash u.pathSegs ++ u.search

/-- Model of the regex `/\/deployments\/([^/]+)/` applied to a pathname
given by its `/`-split segments: the first `deployments` segment followed
by a non-empty segment yields that next segment. -/
def findDeployment : List String → Option String
  | [] => none
  | [_] => none
  | a :: b :: rest =>
      if a = "deployments" && b ≠ "" then some b
      else findDeployment (b :: rest)

/-- Split one `k=v` query piece at the first `=` (JS `URLSearchParams`). -/
def queryPiece (piece : List Char) : String × String :=
  let k := piece.takeWhile (fun c => !(c = '='))
  let v := piece.drop (k.length + 1)
  (⟨k⟩, ⟨v⟩)

/-- The key/value pairs of a raw search string (`""` or `?...`). -/
def queryPairs (search : String) : List (String × String) :=
  match search.data with
  | '?' :: rest => ((splitChar '&' rest).filter (· ≠ [])).map queryPiece
  | _ => []

/-- Model of `url.searchParams.get(key)` (first match, `none` for JS `null`). -/
def queryGet (search key : String) : Option String :=
  ((queryPairs search).find? (fun p => p.1 = key)).map (·.2)

/-! ## The endpoint parser (`parseAzureEndpoint`, src/index.js:155-201) -/

/-- The fallback defaults handed to the parser. -/
structure Defaults where
  deployment : String
  apiVersion : String

/-- The parser's result record. -/
structure EndpointResult where
  baseUrl : String
  deployment : String
  apiVersion : String
deriving DecidableEq

/-- Shallow embedding of `parseAzureEndpoint(input, defaults)`. -/
def parseAzureEndpoint (input : String) (defaults : Defaults) : EndpointResult :=
  match urlParse input with
  | some url =>
      let deployment :=
        match findDeployment url.pathSegs with
        | some d => d
        | none => defaults.deployment
      let apiVersion :=
        match queryGet url.search "api-version" with
        | some v => if v = "" then defaults.apiVersion else v
        | none => defaults.apiVersion
      let segs :=
        if "openai" ∈ url.pathSegs then
          url.pathSegs.take (idxOfStr "openai" url.pathSegs + 1)
        else ["", "openai"]
      let baseUrl :=
        stripTrailingSlash (urlToString { url with pathSegs := segs, search := "" })
      ⟨baseUrl, deployment, apiVersion⟩
  | none =>
      let cleaned := stripTrailingSlash input
      let cleaned := if strStartsWith cleaned "https://" then cleaned
        else "https://" ++ cleaned
      let cleaned := if strEndsWith cleaned "/openai" then cleaned
        else cleaned ++ "/openai"
      ⟨cleaned, defaults.deployment, defaults.apiVersion⟩

/-! ## The connectivity probe (`testConnection`, src/index.js:203-237)

The network is an oracle: a `NetOutcome` says how the single HTTPS
request would have ended.  `testConnection` first builds
`new URL(endpoint + "/deployments/" + deployment + "/chat/completions?api-version=" + apiVersion)`
inside the promise executor; if that constructor throws, the promise is
rejected and the fault propagates to the caller (`Except.error`).
Otherwise every oracle outcome resolves to a `ProbeOutcome`. -/

/-- The `{ ok, status, body }` record the probe resolves with. -/
structure ProbeOutcome where
  ok : Bool
  status : Nat
  body : String
deriving DecidableEq

/-- `existingValue.slice(0, 4) + '...' + existingValue.slice(-4)`. -/
def maskApiKey (k : String) : String :=
  ⟨k.data.take 4⟩ ++ "..." ++ ⟨k.data.drop (k.data.length - 4)⟩

/-! ## JSON documents -/

/-- JSON values, as produced by `JSON.parse` of the config file. -/
inductive JVal where
  | null
  | bool (b : Bool)
  | num (n : Int)
  | str (s : String)
  | arr (elems : List JVal)
  | obj (fields : List (String × JVal))

/-- JavaScript truthiness of a JSON value. -/
def truthy : JVal → Bool
  | .null => false
  | .bool b => b
  | .num n => n ≠ 0
  | .str s => s ≠ ""
  | .arr _ => true
  | .obj _ => true

/-- First binding of a key in an object's field list (JS property read:
JSON objects have no duplicate keys, so first = only). -/
def getKey : List (String × JVal) → String → Option JVal
  | [], _ => none
  | (k, v) :: rest, key => if k = key then some v else getKey rest key

/-- JS property assignment on an object: overwrite the existing binding
in place, or append a new one. -/
def setKey : List (String × JVal) → String → JVal → List (String × JVal)
  | [], key, v => [(key, v)]
  | (k, w) :: rest, key, v =>
      if k = key then (k, v) :: rest else (k, w) :: setKey rest key v

/-- Optional-chained property read `base?.k`: `none` models JS
`undefined`/short-circuit (reading a named property of a primitive also
yields `undefined`). -/
def jGet : JVal → String → Option JVal
  | .obj fields, k => getKey fields k
  | _, _ => none

/-- JS `x || dflt` where `x` may be an absent property. -/
def jOr (x : Option JVal) (dflt : JVal) : JVal :=
  match x with
  | some v => if truthy v then v else dflt
  | none => dflt

/-- JS `Object.keys`: field names for objects, index strings for strings
and arrays, `[]` for other primitives. -/
def jKeys : JVal → List String
  | .obj fields => fields.map (·.1)
  | .arr elems => (List.range elems.length).map (fun n => toString n)
  | .str s => (List.range s.data.length).map (fun n => toString n)
  | _ => []

/-! ## Configuration store (src/index.js:60-73 and 384-408) -/

/-- The record returned by `getExistingAzureSettings`.  `deployment` is
always a string in the source (an object key or `'model-router'`); the
other three are whatever JSON values the stored document holds. -/
structure AzureSettings where
  baseUrl : JVal
  apiKey : JVal
  deployment : String
  apiVersion : JVal

/-- Shallow embedding of `getExistingAzureSettings(config)`
(src/index.js:60-73).  `config` is the parsed file or `JVal.null`. -/
def getExistingAzureSettings (config : JVal) : Option AzureSettings :=
  match (jGet config "provider").bind (fun p => jGet p "azure") with
  | none => none
  | some azure =>
      match jGet azure "options" with
      | none => none
      | some opts =>
          if !truthy opts then none
          else
            let models := jOr (jGet azure "models") (.obj [])
            let modelName :=
              match (jKeys models).head? with
              | some k => if k = "" then "model-router" else k
              | none => "model-router"
            some
              { baseUrl := jOr (jGet opts "baseURL") (.str "")
                apiKey := jOr (jGet opts "apiKey") (.str "")
                deployment := modelName
                apiVersion := jOr (jGet opts "apiVersion") (.str "2025-01-01-preview") }

/-- The fresh `provider.azure` object the merge writes
(src/index.js:393-408). -/
def azureProviderVal (baseUrl apiKey : JVal) (deployment : String)
    (apiVersion : JVal) : JVal :=
  .obj
    [ ("npm", .str "@ai-sdk/azure")
    , ("name", .str "Azure OpenAI")
    , ("options", .obj
        [ ("baseURL", baseUrl)
        , ("apiKey", apiKey)
        , ("useDeploymentBasedUrls", .bool true)
        , ("apiVersion", apiVersion) ])
    , ("models", .obj
        [ (deployment, .obj
            [ ("name", .str deployment)
            , ("limit", .obj [("context", .num 200000), ("output", .num 16384)]) ]) ]) ]

/-- Shallow embedding of the merge step (src/index.js:384-408): set
`$schema`, set `model`, then `config.provider = config.provider || {}`
and replace `config.provider.azure` wholesale.  The result is the merged
document as it serializes at the `JSON.stringify` persist (its only
later reader): for an object (or absent/falsy) provider the azure entry
is the wholesale replacement; for a truthy array provider the in-memory
assignment succeeds, but `JSON.stringify` drops non-index array
properties, so the serialized provider entry is the bare array; for a
truthy primitive provider the strict-mode assignment throws a
`TypeError`, modelled by `none`. -/
def mergeStep (doc : List (String × JVal)) (baseUrl apiKey : JVal)
    (deployment : String) (apiVersion : JVal) : Option (List (String × JVal)) :=
  let d1 := setKey doc "$schema" (.str "https://opencode.ai/config.json")
  let d2 := setKey d1 "model" (.str ("azure/" ++ deployment))
  let provider := jOr (getKey d2 "provider") (.obj [])
  match provider with
  | .obj fields =>
      some (setKey d2 "provider"
        (.obj (setKey fields "azure" (azureProviderVal baseUrl apiKey deployment apiVersion))))
  | .arr elems => some (setKey d2 "provider" (.arr elems))
  | _ => none

/-! ## The orchestrator (`main`, src/index.js:239-527)

`main` is modelled as a pure function of its oracles:

* `answers` — the replies the user would give to the `ask` prompts, in
  order (`""` for just pressing Enter; `getD` with `""` models end of
  input);
* `pw` — the reply to the single `askPassword` prompt;
* `defaults` — what `fetchDefaults()` resolves to (its network fetch
  silently falls back to hardcoded defaults, so it always succeeds);
* `probes` — how each `testConnection` call ends (`fault` models a
  rejected promise, e.g. the URL constructor throwing, which the
  top-level `main().catch` turns into `process.exit(1)`);
* `mcpOk` — whether the MCP npm install inside the `try` succeeds.

The result is the trace of observable events plus the final content of
the persisted config file (`none` = still missing/unreadable).  The model
ends at the config write: the subsequent binary download never touches
the config file. -/

/-- Observable events of a run. -/
inductive Ev where
  | fetchDefaults
  | askEndpoint
  | askApiKey
  | askDeployment
  | askApiVersion
  | askConfirm
  | probe
  | mkdirConfigDir
  | mcpSetup
  | writeConfig
  | exitP (code : Nat)
deriving DecidableEq

/-- JS `s.toLowerCase()` (ASCII, as used on the `y/N` answer). -/
def jsToLower (s : String) : String := ⟨s.data.map Char.toLower⟩

/-- `ask(question, defaultValue)` for string defaults: `answer || defaultValue`. -/
def askS (answer dflt : String) : String := if answer = "" then dflt else answer

/-- `ask(question, defaultValue)` where the default is a stored JSON value. -/
def askJ (answer : String) (dflt : JVal) : JVal :=
  if answer = "" then dflt else .str answer

/-- JS `===` between a freshly typed (non-empty) answer and a stored JSON
value: true exactly for an equal string. -/
def strEqJs (answer : String) (v : JVal) : Bool :=
  match v with
  | .str s => answer = s
  | _ => false

/-- Gathered endpoint/credential state handed to the probe phase, plus
how many `ask` answers were consumed. -/
structure GatherOut where
  baseUrl : JVal
  apiKey : JVal
  deployment : String
  apiVersion : JVal
  used : Nat

/-- The fresh-config interactive path (src/index.js:309-335). -/
def gatherFresh (answers : List String) (pw : String) (defaults : Defaults) :
    List Ev × Option GatherOut :=
  let a0 := answers.getD 0 ""
  if a0 = "" then ([.fetchDefaults, .askEndpoint, .exitP 1], none)
  else
    let p := parseAzureEndpoint a0 defaults
    if pw = "" then ([.fetchDefaults, .askEndpoint, .askApiKey, .exitP 1], none)
    else
      let dep := askS (answers.getD 1 "") p.deployment
      ([.fetchDefaults, .askEndpoint, .askApiKey, .askDeployment],
        some ⟨.str p.baseUrl, .str pw, dep, .str p.apiVersion, 2⟩)

/-- The reuse path shown when a stored base URL exists
(src/index.js:277-308); also reached in non-interactive mode when the
stored credential is missing. -/
def gatherReuse (s : AzureSettings) (answers : List String) (pw : String)
    (defaults : Defaults) : List Ev × Option GatherOut :=
  let a0 := answers.getD 0 ""
  let keep := a0 = "" || strEqJs a0 s.baseUrl
  let (b, dep, av) :=
    if keep then (s.baseUrl, s.deployment, s.apiVersion)
    else
      let p := parseAzureEndpoint a0 defaults
      (JVal.str p.baseUrl, p.deployment, JVal.str p.apiVersion)
  let existingKey := if truthy s.apiKey then s.apiKey else JVal.str ""
  let key := if pw = "" then existingKey else JVal.str pw
  if !truthy key then
    ([.fetchDefaults, .askEndpoint, .askApiKey, .exitP 1], none)
  else if s.deployment ≠ "" && dep = s.deployment then
    ([.fetchDefaults, .askEndpoint, .askApiKey], some ⟨b, key, dep, av, 1⟩)
  else
    let dep2 := askS (answers.getD 1 "") dep
    ([.fetchDefaults, .askEndpoint, .askApiKey, .askDeployment],
      some ⟨b, key, dep2, av, 2⟩)

/-- Everything in `main` before the probe: load the stored document,
fetch defaults, branch on mode and prior state, and resolve the
endpoint/credential values (src/index.js:246-335). -/
def gatherPhase (nonInteractive : Bool) (fileState : Option JVal)
    (answers : List String) (pw : String) (defaults : Defaults) :
    List Ev × Option GatherOut :=
  match getExistingAzureSettings (fileState.getD .null) with
  | none =>
      if nonInteractive then ([.fetchDefaults, .exitP 1], none)
      else gatherFresh answers pw defaults
  | some s =>
      if nonInteractive && truthy s.baseUrl && truthy s.apiKey then
        ([.fetchDefaults], some ⟨s.baseUrl, s.apiKey, s.deployment, s.apiVersion, 0⟩)
      else if nonInteractive && !truthy s.baseUrl then
        ([.fetchDefaults, .exitP 1], none)
      else if truthy s.baseUrl then gatherReuse s answers pw defaults
      else gatherFresh answers pw defaults

/-- The MCP-marketplace entry written into the document when the npm
install succeeds (src/index.js:432-436); a truthy non-object `config.mcp`
makes the assignment throw inside the `try`, leaving the document
unchanged (an array would accept the property but `JSON.stringify` drops
it, so the persisted document is unchanged either way). -/
def mcpApply (fields : List (String × JVal)) (mcpPath : String) :
    List (String × JVal) :=
  let mcpVal : JVal :=
    .obj [("type", .str "local"), ("command", .arr [.str "node", .str mcpPath])]
  match jOr (getKey fields "mcp") (.obj []) with
  | .obj m => setKey fields "mcp" (.obj (setKey m "mcp-marketplace" mcpVal))
  | _ => fields

/-- The commit tail of `main` (src/index.js:380-444): create the config
directory, merge into `existingConfig || {}`, run the MCP setup, then
write the file.  A strict-mode `TypeError` during the merge (truthy
non-object base or `provider`) rejects `main`'s promise and exits 1
before any write; an array base accepts the properties but serializes
back to its elements, so the written content equals the original
document. -/
def commitPhase (fileState : Option JVal) (baseUrl apiKey : JVal)
    (deployment : String) (apiVersion : JVal) (mcpOk : Bool) (mcpPath : String) :
    List Ev × Option JVal :=
  let base := match fileState with
    | some v => if truthy v then v else JVal.obj []
    | none => JVal.obj []
  match base with
  | .obj fields =>
      match mergeStep fields baseUrl apiKey deployment apiVersion with
      | none => ([.mkdirConfigDir, .exitP 1], fileState)
      | some merged =>
          let merged := if mcpOk then mcpApply merged mcpPath else merged
          ([.mkdirConfigDir, .mcpSetup, .writeConfig], some (.obj merged))
  | .arr elems => ([.mkdirConfigDir, .mcpSetup, .writeConfig], some (.arr elems))
  | _ => ([.mkdirConfigDir, .exitP 1], fileState)

/-- How one `testConnection` call, as awaited by `main`, ends. -/
inductive ProbeResp where
  | result (r : ProbeOutcome)
  | fault
deriving DecidableEq

/-- Oracle padding for probe outcomes. -/
def probeDefault : ProbeResp := .result ⟨false, 0, ""⟩

/-- The probe / retry / confirm / commit tail of `main`
(src/index.js:337-444). -/
def probeAndCommit (fileState : Option JVal) (nonInteractive : Bool)
    (baseUrl apiKey : JVal) (deployment : String) (apiVersion : JVal)
    (answers : List String) (probes : List ProbeResp) (mcpOk : Bool)
    (mcpPath : String) : List Ev × Option JVal :=
  match probes.getD 0 probeDefault with
  | .fault => ([.probe, .exitP 1], fileState)
  | .result r1 =>
      if r1.ok then
        let c := commitPhase fileState baseUrl apiKey deployment apiVersion mcpOk mcpPath
        (Ev.probe :: c.1, c.2)
      else if nonInteractive then
        let c := commitPhase fileState baseUrl apiKey deployment apiVersion mcpOk mcpPath
        (Ev.probe :: c.1, c.2)
      else
        let dep2 := askS (answers.getD 0 "") deployment
        let av2 := askJ (answers.getD 1 "") apiVersion
        match probes.getD 1 probeDefault with
        | .fault => ([.probe, .askDeployment, .askApiVersion, .probe, .exitP 1], fileState)
        | .result r2 =>
            if r2.ok then
              let c := commitPhase fileState baseUrl apiKey dep2 av2 mcpOk mcpPath
              ([Ev.probe, Ev.askDeployment, Ev.askApiVersion, Ev.probe] ++ c.1, c.2)
            else
              let cont := askS (answers.getD 2 "") "N"
              if jsToLower cont ≠ "y" then
                ([.probe, .askDeployment, .askApiVersion, .probe, .askConfirm, .exitP 1],
                  fileState)
              else
                let c := commitPhase fileState baseUrl apiKey dep2 av2 mcpOk mcpPath
                ([Ev.probe, Ev.askDeployment, Ev.askApiVersion, Ev.probe, Ev.askConfirm]
                  ++ c.1, c.2)

/-- The whole of `main`, up to and including the config write. -/
def mainFlow (nonInteractive : Bool) (fileState : Option JVal)
    (answers : List String) (pw : String) (defaults : Defaults)
    (probes : List ProbeResp) (mcpOk : Bool) (mcpPath : String) :
    List Ev × Option JVal :=
  match gatherPhase nonInteractive fileState answers pw defaults with
  | (tr, none) => (tr, fileState)
  | (tr, some g) =>
      let pc := probeAndCommit fileState nonInteractive g.baseUrl g.apiKey
        g.deployment g.apiVersion (answers.drop g.used) probes mcpOk mcpPath
      (tr ++ pc.1, pc.2)

/-! ## Lemmas about the string primitives -/

theorem listStartsWith_iff (l p : List Char) :
    listStartsWith l p = true ↔ ∃ t, l = p ++ t := by
  induction p generalizing l with
  | nil => simp [listStartsWith]
  | cons b p ih =>
      cases l with
      | nil => simp [listStartsWith]
      | cons a l =>
          simp only [listStartsWith, Bool.and_eq_true, decide_eq_true_eq, ih,
            List.cons_append, List.cons.injEq]
          constructor
          · rintro ⟨rfl, t, rfl⟩; exact ⟨t, rfl, rfl⟩
          · rintro ⟨t, rfl, rfl⟩; exact ⟨rfl, t, rfl⟩

theorem listEndsWith_iff (l p : List Char) :
    listEndsWith l p = true ↔ ∃ t, l = t ++ p := by
  unfold listEndsWith
  rw [listStartsWith_iff]
  constructor
  · rintro ⟨t, ht⟩
    refine ⟨t.reverse, ?_⟩
    have := congrArg List.reverse ht
    simpa using this
  · rintro ⟨t, rfl⟩
    exact ⟨t.reverse, by simp⟩

theorem listStartsWith_length {l p : List Char} (h : listStartsWith l p = true) :
    p.length ≤ l.length := by
  obtain ⟨t, rfl⟩ := (listStartsWith_iff l p).1 h
  simp

theorem listHasSub_length {l p : List Char} (h : listHasSub l p = true) :
    p.length ≤ l.length := by
  induction l with
  | nil =>
      unfold listHasSub at h
      by_cases hs : listStartsWith [] p = true
      · exact listStartsWith_length hs
      · simp [hs] at h
  | cons a t ih =>
      unfold listHasSub at h
      by_cases hs : listStartsWith (a :: t) p = true
      · exact listStartsWith_length hs
      · simp only [hs] at h
        simp only [Bool.false_eq_true, if_false] at h
        exact le_trans (ih h) (by simp)

theorem strEndsWith_iff (s t : String) :
    strEndsWith s t = true ↔ ∃ u, s.data = u ++ t.data := by
  unfold strEndsWith
  exact listEndsWith_iff _ _

theorem strStartsWith_iff (s t : String) :
    strStartsWith s t = true ↔ ∃ u, s.data = t.data ++ u := by
  unfold strStartsWith
  exact listStartsWith_iff _ _

/-- If prefixing `https://` makes a string end in `/openai`, then either
the original string already ended in `/openai`, or it was exactly
`openai` (the suffix straddles the prefix boundary only at `…//openai`). -/
theorem https_append_endsWith_openai (c : String)
    (h : strEndsWith ("https://" ++ c) "/openai" = true) :
    strEndsWith c "/openai" = true ∨ c = "openai" := by
  rw [strEndsWith_iff] at h
  obtain ⟨u, hu⟩ := h
  rw [String.data_append] at hu
  rcases List.append_eq_append_iff.1 hu with ⟨a2, _, hb⟩ | ⟨c2, ha, hd⟩
  · left
    rw [strEndsWith_iff]
    exact ⟨a2, hb⟩
  · have hlen7 : c2.length + c.data.length = 7 := by
      have hl := congrArg List.length hd
      rw [List.length_append] at hl
      have h7 : ("/openai" : String).data.length = 7 := by decide
      omega
    have hlen8 : u.length + c2.length = 8 := by
      have hl := congrArg List.length ha
      rw [List.length_append] at hl
      have h8 : ("https://" : String).data.length = 8 := by decide
      omega
    have hc1 : c2 = ("/openai" : String).data.take c2.length := by
      conv_rhs => rw [hd]
      rw [List.take_left]
    have hc2 : c2 = ("https://" : String).data.drop u.length := by
      conv_rhs => rw [ha]
      rw [List.drop_left]
    have hun : u.length = 8 - c2.length := by omega
    rw [hun] at hc2
    have key : ("/openai" : String).data.take c2.length
        = ("https://" : String).data.drop (8 - c2.length) := by
      rw [← hc1, ← hc2]
    have hdec : ∀ m, m < 8 →
        (("/openai" : String).data.take m
          = ("https://" : String).data.drop (8 - m)) → m = 0 ∨ m = 1 := by
      decide
    rcases hdec c2.length (by omega) key with h0 | h1
    · left
      have hc2nil : c2 = [] := List.length_eq_zero.1 h0
      rw [hc2nil, List.nil_append] at hd
      rw [strEndsWith_iff]
      exact ⟨[], by rw [List.nil_append, ← hd]⟩
    · right
      have hc2v : c2 = ['/'] := by
        rw [hc1, h1]
        decide
      rw [hc2v] at hd
      apply String.ext
      have : ('/' :: ("openai" : String).data) = '/' :: c.data := hd
      injection this with _ htail
      exact htail.symm

/-! ## Association-list lemmas for the configuration store -/

theorem getKey_setKey_self (l : List (String × JVal)) (k : String) (v : JVal) :
    getKey (setKey l k v) k = some v := by
  induction l with
  | nil => simp [setKey, getKey]
  | cons p rest ih =>
      obtain ⟨k1, v1⟩ := p
      by_cases h : k1 = k
      · subst h
        simp [setKey, getKey]
      · simp [setKey, getKey, h, ih]

theorem getKey_setKey_other (l : List (String × JVal)) (k k2 : String) (v : JVal)
    (h : k ≠ k2) : getKey (setKey l k v) k2 = getKey l k2 := by
  induction l with
  | nil => simp [setKey, getKey, h]
  | cons p rest ih =>
      obtain ⟨k1, v1⟩ := p
      by_cases h1 : k1 = k
      · subst h1
        simp [setKey, getKey, h]
      · simp only [setKey, if_neg h1, getKey]
        by_cases h2 : k1 = k2
        · simp [h2]
        · simp [h2, ih]

theorem setKey_of_getKey (l : List (String × JVal)) (k : String) (v : JVal)
    (h : getKey l k = some v) : setKey l k v = l := by
  induction l with
  | nil => simp [getKey] at h
  | cons p rest ih =>
      obtain ⟨k1, v1⟩ := p
      by_cases h1 : k1 = k
      · subst h1
        have hv : v1 = v := by
          simpa [getKey] using h
        simp [setKey, hv]
      · simp only [getKey, if_neg h1] at h
        simp [setKey, h1, ih h]

/-- `x || {}` can only be an array when `x` was that array. -/
theorem jOr_eq_arr (x : Option JVal) (l : List (String × JVal)) (es : List JVal)
    (h : jOr x (.obj l) = .arr es) : x = some (.arr es) := by
  cases x with
  | none => simp [jOr] at h
  | some v =>
      cases v with
      | null => simp [jOr, truthy] at h
      | bool b => cases b <;> simp [jOr, truthy] at h
      | num n => by_cases hn : n = 0 <;> simp [jOr, truthy, hn] at h
      | str s => by_cases hs : s = "" <;> simp [jOr, truthy, hs] at h
      | arr es2 =>
          simp [jOr, truthy] at h
          rw [h]
      | obj fs => simp [jOr, truthy] at h

/-- Successful merges have one of two fixed shapes: `$schema` and
`model` set, and `provider` holding either the wholesale-replaced
`azure` entry (object/absent/falsy provider) or the original bare array
(array provider, whose in-memory azure property serialization drops). -/
theorem mergeStep_shape (doc : List (String × JVal)) (b k : JVal) (dep : String)
    (av : JVal) (d2 : List (String × JVal)) (h : mergeStep doc b k dep av = some d2) :
    (∃ fields,
      jOr (getKey (setKey (setKey doc "$schema"
            (.str "https://opencode.ai/config.json")) "model"
            (.str ("azure/" ++ dep))) "provider") (.obj [])
        = .obj fields ∧
      d2 = setKey (setKey (setKey doc "$schema"
            (.str "https://opencode.ai/config.json")) "model"
            (.str ("azure/" ++ dep))) "provider"
            (.obj (setKey fields "azure" (azureProviderVal b k dep av))))
    ∨ (∃ es,
      jOr (getKey (setKey (setKey doc "$schema"
            (.str "https://opencode.ai/config.json")) "model"
            (.str ("azure/" ++ dep))) "provider") (.obj [])
        = .arr es ∧
      d2 = setKey (setKey (setKey doc "$schema"
            (.str "https://opencode.ai/config.json")) "model"
            (.str ("azure/" ++ dep))) "provider" (.arr es)) := by
  simp only [mergeStep] at h
  cases hj : jOr (getKey (setKey (setKey doc "$schema"
      (.str "https://opencode.ai/config.json")) "model"
      (.str ("azure/" ++ dep))) "provider") (.obj []) with
  | null => rw [hj] at h; exact Option.noConfusion h
  | bool bb => rw [hj] at h; exact Option.noConfusion h
  | num n => rw [hj] at h; exact Option.noConfusion h
  | str s => rw [hj] at h; exact Option.noConfusion h
  | arr es =>
      rw [hj] at h
      rw [Option.some_inj] at h
      exact Or.inr ⟨es, rfl, h.symm⟩
  | obj fields =>
      rw [hj] at h
      rw [Option.some_inj] at h
      exact Or.inl ⟨fields, rfl, h.symm⟩

/-! ## Claim theorems -/

/-- C9, counterexample: for the four-character key `"abcd"` the mask
`existingValue.slice(0,4) + '...' + existingValue.slice(-4)` is
`"abcd...abcd"`, which contains the entire key — the claim that the
masked form never contains the whole key is false as stated. -/
theorem mask_short_key_cex :
    maskApiKey "abcd" = "abcd...abcd" ∧
    listHasSub ("abcd...abcd" : String).data ("abcd" : String).data = true := by
  constructor
  · rfl
  · decide

/-- C9 (amended): for every stored apiKey of length at least 12, the
masked form produced by `askPassword` — a fixed-length prefix and suffix
of four characters around `"..."` — never equals the key and never
contains the key (keys of at most 11 characters can appear in full inside
the mask, as the counterexample shows). -/
theorem mask_hides_long_keys (k : String) (h : 12 ≤ k.data.length) :
    maskApiKey k ≠ k ∧ listHasSub (maskApiKey k).data k.data = false := by
  have hlen : (maskApiKey k).data.length = 11 := by
    unfold maskApiKey
    rw [String.data_append, String.data_append]
    rw [List.length_append, List.length_append, List.length_take,
      List.length_drop]
    have h3 : ("..." : String).data.length = 3 := by decide
    rw [Nat.min_eq_left (by omega)]
    omega
  constructor
  · intro heq
    rw [heq] at hlen
    omega
  · cases hcon : listHasSub (maskApiKey k).data k.data with
    | false => rfl
    | true =>
        have := listHasSub_length hcon
        omega

/-- C9 witness: a 16-character key is neither equal to nor contained in
its masked display. -/
theorem mask_hides_long_keys_wit :
    maskApiKey "0123456789abcdef" ≠ "0123456789abcdef" ∧
    listHasSub (maskApiKey "0123456789abcdef").data
      ("0123456789abcdef" : String).data = false :=
  mask_hides_long_keys "0123456789abcdef" (by decide)

/-- C10, counterexample: a document whose `provider.azure.options` is
present but falsy (`false`) makes `getExistingAzureSettings` return
nothing, so "returns nothing only when provider.azure.options itself is
absent" is false as stated. -/
theorem extract_falsy_options_cex :
    getExistingAzureSettings
        (.obj [("provider", .obj [("azure", .obj [("options", .bool false)])])])
      = none ∧
    ((jGet (JVal.obj
          [("provider", .obj [("azure", .obj [("options", .bool false)])])])
        "provider").bind (fun p => jGet p "azure")).bind
        (fun a => jGet a "options")
      = some (.bool false) :=
  ⟨rfl, rfl⟩

/-- C10 (amended): `getExistingAzureSettings` returns nothing exactly
when `provider.azure.options` is absent or JS-falsy; when it is present
and truthy, the function substitutes fixed fallbacks for missing fields:
`""` for a missing `baseURL` or `apiKey`, `'2025-01-01-preview'` for a
missing `apiVersion`, and `'model-router'` for the deployment when the
models mapping is absent or empty. -/
theorem extract_fallbacks (config : JVal) :
    (getExistingAzureSettings config = none ↔
      ∀ opts, ((jGet config "provider").bind (fun p => jGet p "azure")).bind
          (fun a => jGet a "options") = some opts → truthy opts = false) ∧
    (∀ azure opts,
      (jGet config "provider").bind (fun p => jGet p "azure") = some azure →
      jGet azure "options" = some opts → truthy opts = true →
      ∃ s, getExistingAzureSettings config = some s ∧
        (jGet opts "baseURL" = none → s.baseUrl = .str "") ∧
        (jGet opts "apiKey" = none → s.apiKey = .str "") ∧
        (jGet opts "apiVersion" = none → s.apiVersion = .str "2025-01-01-preview") ∧
        ((jGet azure "models" = none ∨ jGet azure "models" = some (.obj [])) →
          s.deployment = "model-router")) := by
  constructor
  · cases hch : (jGet config "provider").bind (fun p => jGet p "azure") with
    | none =>
        simp only [getExistingAzureSettings, hch, Option.none_bind]
        simp
    | some azure =>
        cases hop : jGet azure "options" with
        | none =>
            simp only [getExistingAzureSettings, hch, hop, Option.some_bind]
            simp [hop]
        | some opts =>
            simp only [getExistingAzureSettings, hch, hop, Option.some_bind]
            by_cases ht : truthy opts = true
            · simp [ht]
            · have ht2 : truthy opts = false := by
                cases htv : truthy opts
                · rfl
                · exact absurd htv ht
              simp [ht2]
  · intro azure opts hAz hOpts hTru
    simp only [getExistingAzureSettings, hAz, hOpts, hTru]
    refine ⟨_, rfl, ?_, ?_, ?_, ?_⟩
    · intro hb; simp [jOr, hb]
    · intro hb; simp [jOr, hb]
    · intro hb; simp [jOr, hb]
    · rintro (hm | hm) <;> simp [jOr, hm, jKeys, truthy]

/-- C10 witness: a config whose options are a bare, truthy but empty
object yields the all-fallback settings record. -/
theorem extract_fallbacks_wit :
    ∃ s, getExistingAzureSettings
        (.obj [("provider", .obj [("azure", .obj [("options", .obj [])])])])
      = some s ∧ s.baseUrl = .str "" ∧ s.deployment = "model-router" := by
  have h := (extract_fallbacks
    (.obj [("provider", .obj [("azure", .obj [("options", .obj [])])])])).2
    (.obj [("options", .obj [])]) (.obj []) rfl rfl rfl
  obtain ⟨s, hs, hb, _, _, hm⟩ := h
  exact ⟨s, hs, hb rfl, hm (Or.inl rfl)⟩

theorem jGet_obj (l : List (String × JVal)) (k : String) :
    jGet (.obj l) k = getKey l k := rfl

theorem truthy_obj (l : List (String × JVal)) : truthy (.obj l) = true := rfl

theorem jOr_some_obj (l : List (String × JVal)) (d : JVal) :
    jOr (some (.obj l)) d = .obj l := rfl

theorem jKeys_obj (l : List (String × JVal)) :
    jKeys (.obj l) = l.map (fun p => p.1) := rfl

/-- Reading back a document whose `provider` entry holds a merged azure
value gives the stored options (still wrapped in the `|| fallback`
choice) and the first models key as deployment. -/
theorem getExisting_of_provider (d2 pf : List (String × JVal)) (b k : JVal)
    (dep : String) (av : JVal)
    (hP : getKey d2 "provider" = some (.obj pf))
    (hA : getKey pf "azure" = some (azureProviderVal b k dep av))
    (hdep : dep ≠ "") :
    getExistingAzureSettings (.obj d2)
      = some ⟨jOr (some b) (.str ""), jOr (some k) (.str ""), dep,
          jOr (some av) (.str "2025-01-01-preview")⟩ := by
  have h1 : jGet (azureProviderVal b k dep av) "options"
      = some (.obj [("baseURL", b), ("apiKey", k),
          ("useDeploymentBasedUrls", .bool true), ("apiVersion", av)]) := rfl
  have h2 : jGet (azureProviderVal b k dep av) "models"
      = some (.obj [(dep, .obj [("name", .str dep),
          ("limit", .obj [("context", .num 200000), ("output", .num 16384)])])]) := rfl
  have h3 : jGet (JVal.obj [("baseURL", b), ("apiKey", k),
      ("useDeploymentBasedUrls", .bool true), ("apiVersion", av)]) "baseURL"
      = some b := rfl
  have h4 : jGet (JVal.obj [("baseURL", b), ("apiKey", k),
      ("useDeploymentBasedUrls", .bool true), ("apiVersion", av)]) "apiKey"
      = some k := rfl
  have h5 : jGet (JVal.obj [("baseURL", b), ("apiKey", k),
      ("useDeploymentBasedUrls", .bool true), ("apiVersion", av)]) "apiVersion"
      = some av := rfl
  simp only [getExistingAzureSettings, jGet_obj, hP, Option.some_bind, hA, h1,
    h2, truthy_obj, Bool.not_true, jOr_some_obj, jKeys_obj, List.map_cons,
    List.head?_cons, h3, h4, h5]
  simp [hdep]

/-- C3, counterexample: for a document whose provider slot is a truthy
array, the merge completes — in memory `config.provider.azure = {...}`
succeeds, since arrays are objects — but the property sits on an array
and `JSON.stringify`, the only later consumer of the document, drops it:
the merged provider entry is the bare array with no azure entry,
so "the provider.azure entry is replaced wholesale" fails for this
starting document (and a later load finds no settings). -/
theorem merge_array_provider_cex :
    mergeStep [("provider", .arr [.num 1])] (.str "bu") (.str "ak") "dp" (.str "av")
      = some [("provider", .arr [.num 1]),
              ("$schema", .str "https://opencode.ai/config.json"),
              ("model", .str "azure/dp")] ∧
    jGet (.arr [.num 1]) "azure" = none ∧
    getExistingAzureSettings (.obj
      [("provider", .arr [.num 1]),
       ("$schema", .str "https://opencode.ai/config.json"),
       ("model", .str "azure/dp")]) = none :=
  ⟨rfl, rfl, rfl⟩

/-- C3 (amended): whenever the merge step (src/index.js:384-408)
completes on a document — truthy non-object, non-array provider values
crash it with a strict-mode TypeError — it is idempotent: running it
again with the same values returns the very same document (hence the
same owned substructure), and frame-preserving: every top-level key
other than `$schema`, `model` and `provider` is untouched.  Whenever the
merged provider entry is an object (exactly the case of an absent, falsy
or object starting provider slot), its azure entry is the wholesale
replacement value, independent of what was there before; a truthy array
provider survives as the bare starting array, its in-memory azure
property being dropped at serialization. -/
theorem merge_idempotent_frame (doc : List (String × JVal)) (b k : JVal)
    (dep : String) (av : JVal) (d2 : List (String × JVal))
    (h : mergeStep doc b k dep av = some d2) :
    mergeStep d2 b k dep av = some d2 ∧
    (∀ key, key ≠ "$schema" → key ≠ "model" → key ≠ "provider" →
      getKey d2 key = getKey doc key) ∧
    (∀ fields, getKey d2 "provider" = some (.obj fields) →
      getKey fields "azure" = some (azureProviderVal b k dep av)) ∧
    (∀ es, getKey d2 "provider" = some (.arr es) →
      getKey doc "provider" = some (.arr es)) := by
  rcases mergeStep_shape doc b k dep av d2 h with ⟨fields, hj, hshape⟩ | ⟨es, hj, hshape⟩
  · have hS : getKey d2 "$schema"
        = some (.str "https://opencode.ai/config.json") := by
      rw [hshape, getKey_setKey_other _ _ _ _ (by decide),
        getKey_setKey_other _ _ _ _ (by decide)]
      exact getKey_setKey_self _ _ _
    have hM : getKey d2 "model" = some (.str ("azure/" ++ dep)) := by
      rw [hshape, getKey_setKey_other _ _ _ _ (by decide)]
      exact getKey_setKey_self _ _ _
    have hP : getKey d2 "provider"
        = some (.obj (setKey fields "azure" (azureProviderVal b k dep av))) := by
      rw [hshape]
      exact getKey_setKey_self _ _ _
    refine ⟨?_, ?_, ?_, ?_⟩
    · simp only [mergeStep]
      rw [setKey_of_getKey d2 "$schema" _ hS, setKey_of_getKey d2 "model" _ hM,
        hP]
      simp only [jOr, truthy, if_pos]
      rw [setKey_of_getKey _ "azure" _ (getKey_setKey_self fields "azure" _),
        setKey_of_getKey d2 "provider" _ hP]
    · intro key h1 h2 h3
      rw [hshape, getKey_setKey_other _ _ _ _ (Ne.symm h3),
        getKey_setKey_other _ _ _ _ (Ne.symm h2),
        getKey_setKey_other _ _ _ _ (Ne.symm h1)]
    · intro fields0 heq
      rw [hP, Option.some_inj] at heq
      injection heq with heq2
      rw [← heq2]
      exact getKey_setKey_self _ _ _
    · intro es0 heq
      rw [hP, Option.some_inj] at heq
      simp at heq
  · have hS : getKey d2 "$schema"
        = some (.str "https://opencode.ai/config.json") := by
      rw [hshape, getKey_setKey_other _ _ _ _ (by decide),
        getKey_setKey_other _ _ _ _ (by decide)]
      exact getKey_setKey_self _ _ _
    have hM : getKey d2 "model" = some (.str ("azure/" ++ dep)) := by
      rw [hshape, getKey_setKey_other _ _ _ _ (by decide)]
      exact getKey_setKey_self _ _ _
    have hP : getKey d2 "provider" = some (.arr es) := by
      rw [hshape]
      exact getKey_setKey_self _ _ _
    have hdoc : getKey doc "provider" = some (.arr es) := by
      have hx := jOr_eq_arr _ _ _ hj
      rw [getKey_setKey_other _ _ _ _ (by decide),
        getKey_setKey_other _ _ _ _ (by decide)] at hx
      exact hx
    refine ⟨?_, ?_, ?_, ?_⟩
    · simp only [mergeStep]
      rw [setKey_of_getKey d2 "$schema" _ hS, setKey_of_getKey d2 "model" _ hM,
        hP]
      simp only [jOr, truthy, if_pos]
      rw [setKey_of_getKey d2 "provider" _ hP]
    · intro key h1 h2 h3
      rw [hshape, getKey_setKey_other _ _ _ _ (Ne.symm h3),
        getKey_setKey_other _ _ _ _ (Ne.symm h2),
        getKey_setKey_other _ _ _ _ (Ne.symm h1)]
    · intro fields0 heq
      rw [hP, Option.some_inj] at heq
      simp at heq
    · intro es0 heq
      rw [hP, Option.some_inj] at heq
      injection heq with heq2
      rw [← heq2]
      exact hdoc

/-- A one-key starting document for the merge witnesses. -/
def mergeWitBase : List (String × JVal) := [("agent", .str "a")]

/-- `mergeWitBase` after one merge. -/
def mergeWitOnce : List (String × JVal) :=
  [("agent", .str "a"),
   ("$schema", .str "https://opencode.ai/config.json"),
   ("model", .str "azure/dp"),
   ("provider", .obj [("azure",
      azureProviderVal (.str "bu") (.str "ak") "dp" (.str "av"))])]

/-- C3 witness: merging a merged one-key document again returns it
unchanged, the unrelated `agent` key survives, and the object-provider
entry holds the wholesale azure value. -/
theorem merge_idempotent_frame_wit :
    mergeStep mergeWitOnce (.str "bu") (.str "ak") "dp" (.str "av")
      = some mergeWitOnce ∧
    getKey mergeWitOnce "agent" = getKey mergeWitBase "agent" ∧
    getKey [("azure", azureProviderVal (.str "bu") (.str "ak") "dp" (.str "av"))]
        "azure" = some (azureProviderVal (.str "bu") (.str "ak") "dp" (.str "av")) := by
  have h := merge_idempotent_frame mergeWitBase (.str "bu") (.str "ak") "dp"
    (.str "av") mergeWitOnce (by rfl)
  exact ⟨h.1, h.2.1 "agent" (by decide) (by decide) (by decide),
    h.2.2.1 [("azure", azureProviderVal (.str "bu") (.str "ak") "dp" (.str "av"))]
      (by rfl)⟩

/-- C4, counterexample: persisting a merge with the empty apiVersion and
reading it back yields `'2025-01-01-preview'`, not the stored `""` — the
claimed round-trip fails for the empty version token (the falsy read-back
`opts.apiVersion || '2025-01-01-preview'` replaces it). -/
theorem roundtrip_cex :
    ((mergeStep [] (.str "https://h/openai") (.str "sk") "dep" (.str "")).bind
        (fun d => (getExistingAzureSettings (.obj d)).map (fun s => s.apiVersion)))
      = some (.str "2025-01-01-preview") ∧
    JVal.str "2025-01-01-preview" ≠ JVal.str "" := by
  refine ⟨rfl, ?_⟩
  intro hcon
  injection hcon with hs
  exact absurd hs (by decide)

/-- C4 (amended): for every document on which the merge completes, whose
provider slot is not a truthy array (an array provider accepts the
in-memory assignment but serialization drops it, so nothing
round-trips), and every endpoint triple with a non-empty deployment and
non-empty apiVersion, merging, persisting (`JSON.stringify`, the
identity on this model) and reading back through
`getExistingAzureSettings` returns exactly the stored baseUrl, apiKey,
deployment (first models key) and apiVersion. -/
theorem roundtrip_extract (doc : List (String × JVal)) (b k dep av : String)
    (d2 : List (String × JVal))
    (h : mergeStep doc (.str b) (.str k) dep (.str av) = some d2)
    (hprov : ∀ es, getKey doc "provider" ≠ some (JVal.arr es))
    (hdep : dep ≠ "") (hav : av ≠ "") :
    getExistingAzureSettings (.obj d2) = some ⟨.str b, .str k, dep, .str av⟩ := by
  rcases mergeStep_shape doc _ _ dep _ d2 h with ⟨fields, hj, hshape⟩ | ⟨es, hj, hshape⟩
  · have hP : getKey d2 "provider"
        = some (.obj (setKey fields "azure"
            (azureProviderVal (.str b) (.str k) dep (.str av)))) := by
      rw [hshape]
      exact getKey_setKey_self _ _ _
    rw [getExisting_of_provider d2 _ (.str b) (.str k) dep (.str av) hP
      (getKey_setKey_self _ _ _) hdep]
    have hb : jOr (some (.str b)) (.str "") = .str b := by
      by_cases hb0 : b = "" <;> simp [jOr, truthy, hb0]
    have hk : jOr (some (.str k)) (.str "") = .str k := by
      by_cases hk0 : k = "" <;> simp [jOr, truthy, hk0]
    have hv : jOr (some (.str av)) (.str "2025-01-01-preview") = .str av := by
      simp [jOr, truthy, hav]
    rw [hb, hk, hv]
  · exfalso
    have hx := jOr_eq_arr _ _ _ hj
    rw [getKey_setKey_other _ _ _ _ (by decide),
      getKey_setKey_other _ _ _ _ (by decide)] at hx
    exact hprov es hx

/-- The merged document used by the C4 witness. -/
def roundtripWitDoc : List (String × JVal) :=
  [("$schema", .str "https://opencode.ai/config.json"),
   ("model", .str "azure/dep"),
   ("provider", .obj [("azure", azureProviderVal (.str "https://h/openai")
      (.str "sk") "dep" (.str "2024-10-01"))])]

/-- C4 witness: a concrete merge of the empty document round-trips all
four stored values. -/
theorem roundtrip_extract_wit :
    getExistingAzureSettings (.obj roundtripWitDoc)
      = some ⟨.str "https://h/openai", .str "sk", "dep", .str "2024-10-01"⟩ :=
  roundtrip_extract [] "https://h/openai" "sk" "dep" "2024-10-01"
    roundtripWitDoc (by rfl) (by intro es hh; exact Option.noConfusion hh)
    (by decide) (by decide)

/-- The stored config used by the C5 counterexample: a prior endpoint but
no prior credential. -/
def unattendedCexConfig : JVal :=
  .obj [("provider", .obj [("azure", .obj
    [("options", .obj [("baseURL", .str "https://h/openai")])])])]

/-- The run used by the C5 counterexample: non-interactive mode, prior
endpoint present, prior credential missing. -/
def unattendedCexRun : List Ev × Option JVal :=
  mainFlow true (some unattendedCexConfig) [""] "secretkey"
    ⟨"model-router", "2025-01-01-preview"⟩ [.result ⟨true, 200, "ok"⟩] false "mp"

/-- C5, counterexample: in unattended mode with a prior endpoint but no
prior credential (so prior settings do not exist for both), the run does
not exit — it falls into the interactive prompt path, probes the network
and writes the config file, contradicting the claimed fatal error before
any network request or file write. -/
theorem unattended_missing_key_cex :
    unattendedCexRun.1 = [.fetchDefaults, .askEndpoint, .askApiKey, .probe,
      .mkdirConfigDir, .mcpSetup, .writeConfig] ∧
    Ev.writeConfig ∈ unattendedCexRun.1 ∧
    Ev.probe ∈ unattendedCexRun.1 ∧
    (∀ n, Ev.exitP n ∉ unattendedCexRun.1) ∧
    (getExistingAzureSettings unattendedCexConfig).map (fun s => truthy s.apiKey)
      = some false := by
  refine ⟨rfl, ?_, ?_, ?_, rfl⟩
  · rw [show unattendedCexRun.1 = [.fetchDefaults, .askEndpoint, .askApiKey,
      .probe, .mkdirConfigDir, .mcpSetup, .writeConfig] from rfl]
    simp
  · rw [show unattendedCexRun.1 = [.fetchDefaults, .askEndpoint, .askApiKey,
      .probe, .mkdirConfigDir, .mcpSetup, .writeConfig] from rfl]
    simp
  · intro n
    rw [show unattendedCexRun.1 = [.fetchDefaults, .askEndpoint, .askApiKey,
      .probe, .mkdirConfigDir, .mcpSetup, .writeConfig] from rfl]
    simp

/-- C5 (amended): in unattended (`-y`) mode, when the prior settings hold
no endpoint (`baseUrl` absent or falsy), the run exits 1 immediately
after the best-effort defaults fetch: no probe, no prompt and no file
write occur, and the stored file is unchanged.  (A missing credential
alone does not trigger this error path, as the counterexample shows, and
the session-start defaults fetch has already issued its network
request.) -/
theorem unattended_requires_endpoint (fileState : Option JVal)
    (answers : List String) (pw : String) (d : Defaults)
    (probes : List ProbeResp) (mcpOk : Bool) (mcpPath : String)
    (h : ∀ s, getExistingAzureSettings (fileState.getD .null) = some s →
      truthy s.baseUrl = false) :
    mainFlow true fileState answers pw d probes mcpOk mcpPath
      = ([.fetchDefaults, .exitP 1], fileState) := by
  unfold mainFlow gatherPhase
  cases hex : getExistingAzureSettings (fileState.getD .null) with
  | none => simp
  | some s =>
      have hb := h s hex
      simp [hb]

/-- C5 witness: with no stored file at all, the unattended run is exactly
the defaults fetch followed by exit 1, leaving the file absent. -/
theorem unattended_requires_endpoint_wit :
    mainFlow true none [] "" ⟨"model-router", "2025-01-01-preview"⟩ [] false ""
      = ([.fetchDefaults, .exitP 1], none) :=
  unattended_requires_endpoint none [] "" ⟨"model-router", "2025-01-01-preview"⟩
    [] false ""
    (fun s hs => by
      have hnone : (none : Option AzureSettings) = some s := hs
      exact Option.noConfusion hnone)

/-- After a failed probe, a failed retry probe and a declined
confirmation, the probe/commit tail of `main` exits 1 without writing. -/
theorem probeAndCommit_decline (fileState : Option JVal) (b k : JVal)
    (dep : String) (av : JVal) (answers : List String) (probes : List ProbeResp)
    (mcpOk : Bool) (mcpPath : String) (r1 r2 : ProbeOutcome)
    (h1 : probes.getD 0 probeDefault = .result r1) (h1f : r1.ok = false)
    (h2 : probes.getD 1 probeDefault = .result r2) (h2f : r2.ok = false)
    (hdecl : jsToLower (askS (answers.getD 2 "") "N") ≠ "y") :
    probeAndCommit fileState false b k dep av answers probes mcpOk mcpPath
      = ([.probe, .askDeployment, .askApiVersion, .probe, .askConfirm, .exitP 1],
        fileState) := by
  unfold probeAndCommit
  rw [h1, h2]
  simp only [h1f, h2f, Bool.false_eq_true, if_false]
  rw [if_pos hdecl]

/-- C6: in interactive mode, after the first probe fails there is exactly
one retry cycle — re-prompting only the deployment name and API version,
endpoint and credential untouched — and one re-probe; if the retry probe
also fails and the user declines the confirmation, the process exits 1
without reaching the commit, leaving the persisted file exactly as it
was before the session. -/
theorem retry_decline_no_commit (fileState : Option JVal) (answers : List String)
    (pw : String) (d : Defaults) (probes : List ProbeResp) (mcpOk : Bool)
    (mcpPath : String) (tr : List Ev) (g : GatherOut) (r1 r2 : ProbeOutcome)
    (hg : gatherPhase false fileState answers pw d = (tr, some g))
    (h1 : probes.getD 0 probeDefault = .result r1) (h1f : r1.ok = false)
    (h2 : probes.getD 1 probeDefault = .result r2) (h2f : r2.ok = false)
    (hdecl : jsToLower (askS ((answers.drop g.used).getD 2 "") "N") ≠ "y") :
    mainFlow false fileState answers pw d probes mcpOk mcpPath
      = (tr ++ [.probe, .askDeployment, .askApiVersion, .probe, .askConfirm,
          .exitP 1], fileState) := by
  unfold mainFlow
  rw [hg]
  show (tr ++ (probeAndCommit fileState false g.baseUrl g.apiKey g.deployment
      g.apiVersion (answers.drop g.used) probes mcpOk mcpPath).1,
    (probeAndCommit fileState false g.baseUrl g.apiKey g.deployment
      g.apiVersion (answers.drop g.used) probes mcpOk mcpPath).2)
    = (tr ++ [.probe, .askDeployment, .askApiVersion, .probe, .askConfirm,
        .exitP 1], fileState)
  rw [probeAndCommit_decline fileState g.baseUrl g.apiKey g.deployment
    g.apiVersion (answers.drop g.used) probes mcpOk mcpPath r1 r2 h1 h1f h2 h2f
    hdecl]

/-- C6 witness: a fresh interactive session with two failed probes and an
empty (default `N`) confirmation answer exits 1 with no write: the full
trace is the four gathering prompts, the probe, the deployment and API
version re-prompts, the retry probe, the confirmation, then exit. -/
theorem retry_decline_no_commit_wit :
    mainFlow false none ["h9", "", "x", "y", ""] "pw1"
      ⟨"model-router", "2025-01-01-preview"⟩
      [.result ⟨false, 404, "e"⟩, .result ⟨false, 404, "e"⟩] false "mp"
      = ([.fetchDefaults, .askEndpoint, .askApiKey, .askDeployment, .probe,
          .askDeployment, .askApiVersion, .probe, .askConfirm, .exitP 1],
        none) :=
  retry_decline_no_commit none ["h9", "", "x", "y", ""] "pw1"
    ⟨"model-router", "2025-01-01-preview"⟩
    [.result ⟨false, 404, "e"⟩, .result ⟨false, 404, "e"⟩] false "mp"
    [.fetchDefaults, .askEndpoint, .askApiKey, .askDeployment]
    ⟨.str "https://h9/openai", .str "pw1", "model-router",
      .str "2025-01-01-preview", 2⟩
    ⟨false, 404, "e"⟩ ⟨false, 404, "e"⟩ (by rfl) (by rfl) rfl (by rfl) rfl
    (by decide)

theorem realParseFails_no_colon {input : String}
    (h : realParseFails input = true) : ∀ c ∈ input.data, c ≠ ':' := by
  intro c hc hceq
  subst hceq
  have hany : input.data.any (fun c => c = ':') = true := by
    rw [List.any_eq_true]
    exact ⟨':', hc, by simp⟩
  unfold realParseFails at h
  rw [hany] at h
  simp at h

/-- A colon-free input fails the model parse as well (it cannot carry a
scheme prefix). -/
theorem urlParse_none_of_fails (input : String)
    (h : realParseFails input = true) : urlParse input = none := by
  have hnc := realParseFails_no_colon h
  have h1 : strStartsWith input "https://" = false := by
    cases hs : strStartsWith input "https://" with
    | false => rfl
    | true =>
        rw [strStartsWith_iff] at hs
        obtain ⟨t, ht⟩ := hs
        exact absurd rfl (hnc ':'
          (by rw [ht]; exact List.mem_append_left _ (by decide)))
  have h2 : strStartsWith input "http://" = false := by
    cases hs : strStartsWith input "http://" with
    | false => rfl
    | true =>
        rw [strStartsWith_iff] at hs
        obtain ⟨t, ht⟩ := hs
        exact absurd rfl (hnc ':'
          (by rw [ht]; exact List.mem_append_left _ (by decide)))
  unfold urlParse
  rw [h1, h2]
  simp

theorem stripTrailingSlash_data_prefix (s : String) :
    ∃ t, s.data = (stripTrailingSlash s).data ++ t := by
  unfold stripTrailingSlash
  cases hE : strEndsWith s "/" with
  | true =>
      rw [if_pos rfl]
      rw [strEndsWith_iff] at hE
      obtain ⟨u, hu⟩ := hE
      rw [show ("/" : String).data = ['/'] from rfl] at hu
      refine ⟨['/'], ?_⟩
      show s.data = s.data.dropLast ++ ['/']
      rw [hu, List.dropLast_concat]
  | false =>
      rw [if_neg Bool.false_ne_true]
      exact ⟨[], by simp⟩

theorem strStartsWith_of_strip (s p : String)
    (h : strStartsWith (stripTrailingSlash s) p = true) :
    strStartsWith s p = true := by
  rw [strStartsWith_iff] at h ⊢
  obtain ⟨t1, h1⟩ := h
  obtain ⟨t2, h2⟩ := stripTrailingSlash_data_prefix s
  exact ⟨t1 ++ t2, by rw [h2, h1, List.append_assoc]⟩

theorem strip_not_https (input : String) (h : realParseFails input = true) :
    strStartsWith (stripTrailingSlash input) "https://" = false := by
  cases hs : strStartsWith (stripTrailingSlash input) "https://" with
  | false => rfl
  | true =>
      have h2 := strStartsWith_of_strip input "https://" hs
      rw [strStartsWith_iff] at h2
      obtain ⟨t, ht⟩ := h2
      exact absurd rfl (realParseFails_no_colon h ':'
        (by rw [ht]; exact List.mem_append_left _ (by decide)))

/-- C8: for every colon-free input — such inputs carry no scheme
separator, so strict URL parsing always fails on them and the catch
branch runs — parseAzureEndpoint strips one trailing slash, prepends
the secure-scheme prefix, and keeps or appends the root-segment path
according to whether it is already present at the end; in particular a
bare host that neither ends in `/openai` nor equals `openai` after the
slash strip yields exactly `https://<host>/openai`. -/
theorem bare_host_normalize (input : String) (d : Defaults)
    (hfail : realParseFails input = true) :
    (strEndsWith ("https://" ++ stripTrailingSlash input) "/openai" = true →
      (parseAzureEndpoint input d).baseUrl
        = "https://" ++ stripTrailingSlash input) ∧
    (strEndsWith ("https://" ++ stripTrailingSlash input) "/openai" = false →
      (parseAzureEndpoint input d).baseUrl
        = "https://" ++ stripTrailingSlash input ++ "/openai") ∧
    (strEndsWith (stripTrailingSlash input) "/openai" = false →
      stripTrailingSlash input ≠ "openai" →
      (parseAzureEndpoint input d).baseUrl
        = "https://" ++ stripTrailingSlash input ++ "/openai") := by
  have hp := urlParse_none_of_fails input hfail
  have hcns := strip_not_https input hfail
  refine ⟨?_, ?_, ?_⟩
  · intro hE
    simp only [parseAzureEndpoint, hp]
    rw [hcns, if_neg Bool.false_ne_true, hE, if_pos rfl]
  · intro hE
    simp only [parseAzureEndpoint, hp]
    rw [hcns, if_neg Bool.false_ne_true, hE, if_neg Bool.false_ne_true]
  · intro hroot hob
    have hne : strEndsWith ("https://" ++ stripTrailingSlash input) "/openai"
        = false := by
      cases hc : strEndsWith ("https://" ++ stripTrailingSlash input)
          "/openai" with
      | false => rfl
      | true =>
          rcases https_append_endsWith_openai _ hc with h1 | h2
          · rw [h1] at hroot
            exact absurd hroot (by simp)
          · exact absurd h2 hob
    simp only [parseAzureEndpoint, hp]
    rw [hcns, if_neg Bool.false_ne_true, hne, if_neg Bool.false_ne_true]

/-- C8 witness: the spec's bare-host example. -/
theorem bare_host_normalize_wit :
    (parseAzureEndpoint "foo.openai.azure.com" ⟨"dd", "vv"⟩).baseUrl
      = "https://foo.openai.azure.com/openai" := by
  have h := (bare_host_normalize "foo.openai.azure.com" ⟨"dd", "vv"⟩
    (by rfl)).2.2 (by decide) (by decide)
  rw [h]
  rfl

end AzureSetup
